import Mathlib

/-!
Shallow embedding of the flyp-marketplace Anchor program
(programs/flyp-marketplace/src/lib.rs) and verification of its
specification.

Machine integers (u64, u128) are modelled as Nat; the narrowing as-cast
from u128 to u64 in the source is modelled by an explicit reduction
modulo 2 ^ 64.  Fallible code is modelled with Option (a value of none
stands for a Rust panic from unwrap on checked arithmetic) and Except
(lifecycle instructions, whose whole transaction reverts on error).
-/

/-- Size of the u64 value space: the as-u64 narrowing cast in the source
reduces modulo this constant. -/
def U64 : Nat := 2 ^ 64

/-- Size of the u128 value space: checked_mul on u128 fails (and the
following unwrap panics) when a product reaches this bound. -/
def U128 : Nat := 2 ^ 128

/-- A creator entry as supplied by the token metadata
(mpl_token_metadata, type Creator): address, verified flag, share
percentage (a u8 in the source). -/
structure Creator where
  address : Nat
  verified : Bool
  share : Nat
deriving DecidableEq

/-- Constant FEE_DENOMINATOR from the source (basis points, 100% = 10000). -/
def FEE_DENOMINATOR : Nat := 10000

/-- Constant MARKETPLACE_FEE_SHARE from the source (90% of the fee). -/
def MARKETPLACE_FEE_SHARE : Nat := 9000

/-- Constant SECOND_BIDDER_FEE_SHARE from the source (10% of the fee). -/
def SECOND_BIDDER_FEE_SHARE : Nat := 1000

/-- The loop body of calculate_creator_payments (lib.rs lines 277-289):
for each verified creator the fee is price * share / 100, computed in
u128 (checked_mul then checked_div, both unwrapped) and narrowed to u64
by an as-cast (reduction mod 2 ^ 64); the fee is pushed onto the payment
list and subtracted from the remaining payment with checked_sub, whose
unwrap panics (none) on underflow. -/
def creatorLoop (price : Nat) : List Creator → Nat → Option (List (Nat × Nat) × Nat)
  | [], rem => some ([], rem)
  | c :: rest, rem =>
    if c.verified then
      if price * c.share < U128 then
        if price * c.share / 100 % U64 ≤ rem then
          match creatorLoop price rest (rem - price * c.share / 100 % U64) with
          | some (pays, r) => some ((c.address, price * c.share / 100 % U64) :: pays, r)
          | none => none
        else none
      else none
    else creatorLoop price rest rem

/-- calculate_creator_payments (lib.rs lines 269-292): walks the creator
list in order, paying each verified entry, and returns the accumulated
payments together with the remaining payment. -/
def calculate_creator_payments (price : Nat) (creators : Option (List Creator)) :
    Option (List (Nat × Nat) × Nat) :=
  match creators with
  | some cs => creatorLoop price cs price
  | none => some ([], price)

/-- calculate_and_distribute_fee (lib.rs lines 294-324): total fee is
2.5% of the amount (250 basis points), split 90/10 between marketplace
and second bidder, each with its own flooring division; the second
bidder fee is capped at second_highest_bid and the shortfall is added to
the marketplace fee; the seller receives amount minus the total fee
(checked_sub).  All products are computed in u128 with checked_mul and
narrowed back to u64 by as-casts. -/
def calculate_and_distribute_fee (amount second_highest_bid : Nat) :
    Option (Nat × Nat × Nat) :=
  if amount * 250 < U128 then
    let total_fee := amount * 250 / FEE_DENOMINATOR % U64
    if total_fee * MARKETPLACE_FEE_SHARE < U128 ∧ total_fee * SECOND_BIDDER_FEE_SHARE < U128 then
      let marketplace_fee := total_fee * MARKETPLACE_FEE_SHARE / FEE_DENOMINATOR % U64
      let second_bidder_fee := total_fee * SECOND_BIDDER_FEE_SHARE / FEE_DENOMINATOR % U64
      let adjusted_second_bidder_fee := min second_bidder_fee second_highest_bid
      let adjusted_marketplace_fee :=
        marketplace_fee + (second_bidder_fee - adjusted_second_bidder_fee)
      if total_fee ≤ amount then
        some (adjusted_marketplace_fee, adjusted_second_bidder_fee, amount - total_fee)
      else none
    else none
  else none

/-- The settlement computation shared by execute_sale and accept_bid
(lib.rs lines 94-104 and 225-235): royalties first, then the platform
fee split on the remaining payment. -/
def settle (price : Nat) (creators : Option (List Creator)) (shb : Nat) :
    Option (List (Nat × Nat) × Nat × Nat × Nat) :=
  match calculate_creator_payments price creators with
  | some (pays, rem) =>
    match calculate_and_distribute_fee rem shb with
    | some (mf, sbf, sp) => some (pays, mf, sbf, sp)
    | none => none
  | none => none

/-- Specification-side description of the royalty payment list: the
verified creators, in order, each paired with the exact floor of
price * share / 100 (no narrowing). -/
def royaltyPayments (price : Nat) (cs : List Creator) : List (Nat × Nat) :=
  (cs.filter fun c => c.verified).map fun c => (c.address, price * c.share / 100)

/-- Specification-side sum of the exact royalty fees of the verified
creators. -/
def royaltySum (price : Nat) (cs : List Creator) : Nat :=
  ((cs.filter fun c => c.verified).map fun c => price * c.share / 100).sum

/-- Sum of the share percentages of the verified creators. -/
def sharesSum (cs : List Creator) : Nat :=
  ((cs.filter fun c => c.verified).map fun c => c.share).sum

/-- Total amount of a payment list. -/
def paymentsTotal (pays : List (Nat × Nat)) : Nat := (pays.map Prod.snd).sum

/-- The rounding dust lost when a total fee is split 90/10 with two
separate flooring divisions: one unit unless the fee is a multiple
of 10. -/
def feeDust (t : Nat) : Nat := if t % 10 = 0 then 0 else 1

/-- Errors observable from the program.  The unauthorized constructor
embeds the Anchor has_one constraint failure raised when the signing
caller is not the stored owner of the record; notFound a missing
record account; accountInUse an init on an already existing record;
insufficientFunds an SPL token transfer failure; arithmeticPanic a Rust
panic from an unwrap on checked arithmetic. -/
inductive MErr where
  | unauthorized
  | notFound
  | accountInUse
  | insufficientFunds
  | arithmeticPanic
deriving DecidableEq

/-- An SPL token transfer (token::transfer in the source): fails when
the source balance is insufficient, otherwise debits the source and
credits the destination. -/
def splTransfer (source dest amount : Nat) : Option (Nat × Nat) :=
  if amount ≤ source then some (source - amount, dest + amount) else none

/-- The payment accounts touched by transfer_payments (lib.rs lines
326-385).  All debits are made from buyer_payment_account, the field of
the ExecuteSale account context; credits to the creator accounts taken
from remaining_accounts are accumulated into one total. -/
structure PayAccounts where
  buyer_payment_account : Nat
  seller_payment_account : Nat
  marketplace_fee_account : Nat
  second_bidder_account : Nat
  creator_accounts_total : Nat
deriving DecidableEq

/-- The creator leg of transfer_payments (lib.rs lines 346-358): each
positive creator payment is transferred from the buyer payment account;
zero amounts are skipped. -/
def payCreators (a : PayAccounts) : List (Nat × Nat) → Option PayAccounts
  | [] => some a
  | (_, amt) :: rest =>
    if 0 < amt then
      match splTransfer a.buyer_payment_account a.creator_accounts_total amt with
      | some (b, c) =>
        payCreators { a with buyer_payment_account := b, creator_accounts_total := c } rest
      | none => none
    else payCreators a rest

/-- transfer_payments (lib.rs lines 326-385): transfers, in order, the
seller payment, the creator payments, the marketplace fee and the second
bidder fee, each skipped when zero, all drawn from
buyer_payment_account. -/
def transfer_payments (a : PayAccounts) (seller_payment : Nat)
    (creator_payments : List (Nat × Nat)) (marketplace_fee second_bidder_fee : Nat) :
    Option PayAccounts :=
  let step1 :=
    if 0 < seller_payment then
      match splTransfer a.buyer_payment_account a.seller_payment_account seller_payment with
      | some (b, s) => some { a with buyer_payment_account := b, seller_payment_account := s }
      | none => none
    else some a
  match step1 with
  | none => none
  | some a1 =>
    match payCreators a1 creator_payments with
    | none => none
    | some a2 =>
      let step3 :=
        if 0 < marketplace_fee then
          match splTransfer a2.buyer_payment_account a2.marketplace_fee_account marketplace_fee with
          | some (b, m) =>
            some { a2 with buyer_payment_account := b, marketplace_fee_account := m }
          | none => none
        else some a2
      match step3 with
      | none => none
      | some a3 =>
        if 0 < second_bidder_fee then
          match splTransfer a3.buyer_payment_account a3.second_bidder_account second_bidder_fee with
          | some (b, sb) =>
            some { a3 with buyer_payment_account := b, second_bidder_account := sb }
          | none => none
        else some a3

/-- The Listing account (lib.rs lines 590-598). -/
structure ListingRec where
  seller : Nat
  nft_mint : Nat
  price : Nat
  quantity : Nat
  created_at : Int
  expiry : Int
deriving DecidableEq

/-- The Bid account (lib.rs lines 600-607). -/
structure BidRec where
  bidder : Nat
  nft_mint : Nat
  price : Nat
  created_at : Int
  expiry : Int
deriving DecidableEq

/-- The accounts touched by the listing instructions: the payment
accounts, the NFT token balances of the seller, the vault and the buyer,
the Listing record (none when the account does not exist), and the
lamport balances of the seller and of the listing account (its storage
rent reserve). -/
structure ListingState where
  pay : PayAccounts
  seller_nft_account : Nat
  vault_nft_account : Nat
  buyer_nft_account : Nat
  listing : Option ListingRec
  seller_lamports : Nat
  listing_lamports : Nat
deriving DecidableEq

/-- The accounts touched by the bid instructions.  The field
buyer_payment_account lives inside pay: it is the ExecuteSale context
account that transfer_payments debits; the AcceptBid context declares no
such account (the program passes its context to helpers written against
Context of ExecuteSale), and in particular escrow_payment_account is
never used as the funding source. -/
structure BidState where
  pay : PayAccounts
  bidder_payment_account : Nat
  escrow_payment_account : Nat
  seller_nft_account : Nat
  bidder_nft_account : Nat
  bid : Option BidRec
  bidder_lamports : Nat
  seller_lamports : Nat
  bid_lamports : Nat
deriving DecidableEq

/-- create_listing (lib.rs lines 21-57): initializes the Listing record
(the seller pays the rent reserve of the new account) and transfers the
whole quantity of NFT units from the seller account to the vault.  No
validation of price or quantity is performed. -/
def create_listing (st : ListingState) (seller nft_mint price quantity : Nat)
    (now expiry : Int) (rent : Nat) : Except MErr ListingState :=
  match st.listing with
  | some _ => .error .accountInUse
  | none =>
    if rent ≤ st.seller_lamports then
      match splTransfer st.seller_nft_account st.vault_nft_account quantity with
      | some (s, v) =>
        .ok { st with
              listing := some ⟨seller, nft_mint, price, quantity, now, expiry⟩,
              seller_nft_account := s, vault_nft_account := v,
              seller_lamports := st.seller_lamports - rent, listing_lamports := rent }
      | none => .error .insufficientFunds
    else .error .insufficientFunds

/-- cancel_listing (lib.rs lines 60-87 with the CancelListing account
constraints, lines 421-446): the has_one constraint requires the signer
to be the stored seller; the whole remaining quantity moves from the
vault back to the seller and the record account is closed, its lamports
going to the seller (close = seller). -/
def cancel_listing (caller : Nat) (st : ListingState) : Except MErr ListingState :=
  match st.listing with
  | none => .error .notFound
  | some l =>
    if caller = l.seller then
      match splTransfer st.vault_nft_account st.seller_nft_account l.quantity with
      | some (v, s) =>
        .ok { st with
              vault_nft_account := v, seller_nft_account := s, listing := none,
              seller_lamports := st.seller_lamports + st.listing_lamports,
              listing_lamports := 0 }
      | none => .error .insufficientFunds
    else .error .unauthorized

/-- A failed instruction reverts the whole transaction: the observable
state after a cancel_listing call. -/
def runCancelListing (caller : Nat) (st : ListingState) : ListingState :=
  match cancel_listing caller st with
  | .ok st2 => st2
  | .error _ => st

/-- execute_sale (lib.rs lines 90-155): computes the settlement on the
listing price, runs transfer_payments, moves one NFT unit from the vault
to the buyer, then closes the listing (lamports to the seller) when its
quantity is 1 and otherwise decrements the quantity by one (the
subtraction underflows, modelled as a panic, when the quantity is 0). -/
def execute_sale (st : ListingState) (creators : Option (List Creator)) (shb : Nat) :
    Except MErr ListingState :=
  match st.listing with
  | none => .error .notFound
  | some l =>
    match calculate_creator_payments l.price creators with
    | none => .error .arithmeticPanic
    | some (pays, rem) =>
      match calculate_and_distribute_fee rem shb with
      | none => .error .arithmeticPanic
      | some (mf, sbf, sp) =>
        match transfer_payments st.pay sp pays mf sbf with
        | none => .error .insufficientFunds
        | some pay2 =>
          match splTransfer st.vault_nft_account st.buyer_nft_account 1 with
          | none => .error .insufficientFunds
          | some (v, b) =>
            if l.quantity = 1 then
              .ok { st with
                    pay := pay2, vault_nft_account := v, buyer_nft_account := b,
                    listing := none,
                    seller_lamports := st.seller_lamports + st.listing_lamports,
                    listing_lamports := 0 }
            else if l.quantity = 0 then .error .arithmeticPanic
            else
              .ok { st with
                    pay := pay2, vault_nft_account := v, buyer_nft_account := b,
                    listing := some { l with quantity := l.quantity - 1 } }

/-- place_bid (lib.rs lines 158-187): initializes the Bid record (the
bidder pays the rent reserve) and transfers the bid price from the
bidder payment account into the escrow.  No validation of price is
performed. -/
def place_bid (st : BidState) (bidder nft_mint price : Nat) (now expiry : Int)
    (rent : Nat) : Except MErr BidState :=
  match st.bid with
  | some _ => .error .accountInUse
  | none =>
    if rent ≤ st.bidder_lamports then
      match splTransfer st.bidder_payment_account st.escrow_payment_account price with
      | some (bp, es) =>
        .ok { st with
              bid := some ⟨bidder, nft_mint, price, now, expiry⟩,
              bidder_payment_account := bp, escrow_payment_account := es,
              bidder_lamports := st.bidder_lamports - rent, bid_lamports := rent }
      | none => .error .insufficientFunds
    else .error .insufficientFunds

/-- cancel_bid (lib.rs lines 190-218 with the CancelBid account
constraints, lines 522-543): the has_one constraint requires the signer
to be the stored bidder; the escrowed price moves back to the bidder and
the record account is closed, its lamports going to the bidder
(close = bidder). -/
def cancel_bid (caller : Nat) (st : BidState) : Except MErr BidState :=
  match st.bid with
  | none => .error .notFound
  | some b =>
    if caller = b.bidder then
      match splTransfer st.escrow_payment_account st.bidder_payment_account b.price with
      | some (es, bp) =>
        .ok { st with
              bid := none, escrow_payment_account := es, bidder_payment_account := bp,
              bidder_lamports := st.bidder_lamports + st.bid_lamports, bid_lamports := 0 }
      | none => .error .insufficientFunds
    else .error .unauthorized

/-- A failed instruction reverts the whole transaction: the observable
state after a cancel_bid call. -/
def runCancelBid (caller : Nat) (st : BidState) : BidState :=
  match cancel_bid caller st with
  | .ok st2 => st2
  | .error _ => st

/-- accept_bid (lib.rs lines 221-265 with the AcceptBid account
constraints, lines 546-586): computes the settlement on the bid price,
runs transfer_payments (which debits buyer_payment_account, the
ExecuteSale context field, the escrow being left untouched), moves one
NFT unit from the seller to the bidder, and closes the Bid account with
its lamports going to the seller (close = seller). -/
def accept_bid (st : BidState) (creators : Option (List Creator)) (shb : Nat) :
    Except MErr BidState :=
  match st.bid with
  | none => .error .notFound
  | some b =>
    match calculate_creator_payments b.price creators with
    | none => .error .arithmeticPanic
    | some (pays, rem) =>
      match calculate_and_distribute_fee rem shb with
      | none => .error .arithmeticPanic
      | some (mf, sbf, sp) =>
        match transfer_payments st.pay sp pays mf sbf with
        | none => .error .insufficientFunds
        | some pay2 =>
          match splTransfer st.seller_nft_account st.bidder_nft_account 1 with
          | none => .error .insufficientFunds
          | some (sn, bn) =>
            .ok { st with
                  pay := pay2, seller_nft_account := sn, bidder_nft_account := bn,
                  bid := none,
                  seller_lamports := st.seller_lamports + st.bid_lamports,
                  bid_lamports := 0 }

/-- Floor division by 100 is superadditive. -/
lemma div100_add (a b : Nat) : a / 100 + b / 100 ≤ (a + b) / 100 := by omega

/-- The exact royalty sum is bounded by the floor of price times the
verified share total over 100. -/
lemma royaltySum_le (price : Nat) (cs : List Creator) :
    royaltySum price cs ≤ price * sharesSum cs / 100 := by
  induction cs with
  | nil => simp [royaltySum, sharesSum]
  | cons c cs ih =>
    by_cases hv : c.verified
    · have h1 : price * c.share / 100 + price * sharesSum cs / 100 ≤
          (price * c.share + price * sharesSum cs) / 100 := div100_add _ _
      rw [← Nat.mul_add] at h1
      simp only [royaltySum, sharesSum, List.filter_cons, hv, if_true, List.map_cons,
        List.sum_cons] at *
      exact le_trans (Nat.add_le_add_left ih _) h1
    · simp only [royaltySum, sharesSum, List.filter_cons, hv] at *
      simpa using ih

/-- A royalty fee with share at most 100 is bounded by the price. -/
lemma fee_le_price (price s : Nat) (hs : s ≤ 100) : price * s / 100 ≤ price := by
  have h1 : price * s ≤ price * 100 := Nat.mul_le_mul_left price hs
  have h2 : price * s / 100 ≤ price * 100 / 100 := Nat.div_le_div_right h1
  omega

/-- Success characterization of the creator loop: when the price fits in
a u64, every verified share is at most 100 and the exact royalty sum
fits in the remaining amount, the loop succeeds and returns the exact
payment list and remainder (the u128 guard never fires and the u64
narrowing never truncates). -/
lemma creatorLoop_eq (price : Nat) (hp : price < U64) :
    ∀ (cs : List Creator) (rem : Nat),
      (∀ c ∈ cs, c.verified = true → c.share ≤ 100) →
      royaltySum price cs ≤ rem →
      creatorLoop price cs rem = some (royaltyPayments price cs, rem - royaltySum price cs) := by
  intro cs
  induction cs with
  | nil => intro rem _ _; simp [creatorLoop, royaltyPayments, royaltySum]
  | cons c cs ih =>
    intro rem hshare hsum
    by_cases hv : c.verified
    · have hs : c.share ≤ 100 := hshare c (by simp) hv
      have hfee_le : price * c.share / 100 ≤ price := fee_le_price price c.share hs
      have hfee_lt : price * c.share / 100 < U64 := lt_of_le_of_lt hfee_le hp
      have hmod : price * c.share / 100 % U64 = price * c.share / 100 :=
        Nat.mod_eq_of_lt hfee_lt
      have hmul : price * c.share < U128 := by
        have h1 : price * c.share ≤ U64 * 100 :=
          le_trans (Nat.mul_le_mul_left price hs) (Nat.mul_le_mul_right 100 (le_of_lt hp))
        have h2 : U64 * 100 < U128 := by decide
        omega
      have hroyal : royaltySum price (c :: cs) = price * c.share / 100 + royaltySum price cs := by
        simp [royaltySum, List.filter_cons, hv]
      have hle : price * c.share / 100 ≤ rem := by omega
      have hrec := ih (rem - price * c.share / 100)
        (fun c2 h2 hv2 => hshare c2 (by simp [h2]) hv2) (by omega)
      simp only [creatorLoop, hv, if_true, hmod, hmul, hle, if_pos, hrec]
      have hpay : royaltyPayments price (c :: cs) =
          (c.address, price * c.share / 100) :: royaltyPayments price cs := by
        simp [royaltyPayments, List.filter_cons, hv]
      rw [hpay, hroyal, Nat.sub_sub]
    · have hv2 : c.verified = false := by simpa using hv
      have hroyal : royaltySum price (c :: cs) = royaltySum price cs := by
        simp [royaltySum, List.filter_cons, hv2]
      have hpay : royaltyPayments price (c :: cs) = royaltyPayments price cs := by
        simp [royaltyPayments, List.filter_cons, hv2]
      rw [hroyal] at hsum
      simp only [creatorLoop, hv2, Bool.false_eq_true, if_false, hpay, hroyal]
      exact ih rem (fun c2 h2 hv3 => hshare c2 (by simp [h2]) hv3) hsum

/-- Exactness on success: when the price fits in a u64 and every
verified share is at most 100, any successful run of the creator loop
returned the exact floors (no truncation) and consumed exactly the
royalty sum. -/
lemma creatorLoop_exact (price : Nat) (hp : price < U64) :
    ∀ (cs : List Creator) (rem : Nat) (pays : List (Nat × Nat)) (r : Nat),
      (∀ c ∈ cs, c.verified = true → c.share ≤ 100) →
      creatorLoop price cs rem = some (pays, r) →
      pays = royaltyPayments price cs ∧ rem = r + royaltySum price cs := by
  intro cs
  induction cs with
  | nil =>
    intro rem pays r _ hrun
    simp only [creatorLoop, Option.some.injEq, Prod.mk.injEq] at hrun
    simp [royaltyPayments, royaltySum, hrun.1.symm, hrun.2.symm]
  | cons c cs ih =>
    intro rem pays r hshare hrun
    by_cases hv : c.verified
    · have hs : c.share ≤ 100 := hshare c (by simp) hv
      have hfee_lt : price * c.share / 100 < U64 :=
        lt_of_le_of_lt (fee_le_price price c.share hs) hp
      have hmod : price * c.share / 100 % U64 = price * c.share / 100 :=
        Nat.mod_eq_of_lt hfee_lt
      have hmul : price * c.share < U128 := by
        have h1 : price * c.share ≤ U64 * 100 :=
          le_trans (Nat.mul_le_mul_left price hs) (Nat.mul_le_mul_right 100 (le_of_lt hp))
        have h2 : U64 * 100 < U128 := by decide
        omega
      simp only [creatorLoop, hv, if_true, hmod, hmul, if_pos] at hrun
      by_cases hle : price * c.share / 100 ≤ rem
      · rw [if_pos hle] at hrun
        rcases hrec : creatorLoop price cs (rem - price * c.share / 100) with _ | ⟨pays1, r1⟩ <;>
          rw [hrec] at hrun
        · exact absurd hrun (by simp)
        · simp only [Option.some.injEq, Prod.mk.injEq] at hrun
          have hih := ih (rem - price * c.share / 100) pays1 r1
            (fun c2 h2 hv2 => hshare c2 (by simp [h2]) hv2) hrec
          have hpay : royaltyPayments price (c :: cs) =
              (c.address, price * c.share / 100) :: royaltyPayments price cs := by
            simp [royaltyPayments, List.filter_cons, hv]
          have hroyal : royaltySum price (c :: cs) =
              price * c.share / 100 + royaltySum price cs := by
            simp [royaltySum, List.filter_cons, hv]
          constructor
          · rw [hpay, ← hrun.1, hih.1]
          · rw [hroyal, ← hrun.2]
            omega
      · rw [if_neg hle] at hrun
        exact absurd hrun (by simp)
    · have hv2 : c.verified = false := by simpa using hv
      simp only [creatorLoop, hv2, Bool.false_eq_true, if_false] at hrun
      have hih := ih rem pays r (fun c2 h2 hv3 => hshare c2 (by simp [h2]) hv3) hrun
      have hpay : royaltyPayments price (c :: cs) = royaltyPayments price cs := by
        simp [royaltyPayments, List.filter_cons, hv2]
      have hroyal : royaltySum price (c :: cs) = royaltySum price cs := by
        simp [royaltySum, List.filter_cons, hv2]
      rw [hpay, hroyal]
      exact hih

/-- The total of the specification-side payment list is the royalty sum. -/
lemma paymentsTotal_royaltyPayments (price : Nat) (cs : List Creator) :
    paymentsTotal (royaltyPayments price cs) = royaltySum price cs := by
  simp [paymentsTotal, royaltyPayments, royaltySum, List.map_map, Function.comp_def]

/-- Characterization of calculate_and_distribute_fee for a u64 amount:
no guard fires, no narrowing truncates, and the returned triple is built
from the three flooring divisions, with the second bidder fee capped at
the second highest bid and the shortfall folded into the marketplace
fee. -/
lemma cadf_eq (amount shb : Nat) (h : amount < U64) :
    calculate_and_distribute_fee amount shb =
      some (amount * 250 / 10000 * 9000 / 10000 +
              (amount * 250 / 10000 * 1000 / 10000 -
                min (amount * 250 / 10000 * 1000 / 10000) shb),
            min (amount * 250 / 10000 * 1000 / 10000) shb,
            amount - amount * 250 / 10000) := by
  have h1 : amount * 250 < U128 := by
    have h2 : amount * 250 ≤ U64 * 250 := Nat.mul_le_mul_right 250 (le_of_lt h)
    have h3 : U64 * 250 < U128 := by decide
    omega
  have ht_le : amount * 250 / 10000 ≤ amount := by omega
  have ht_lt : amount * 250 / 10000 < U64 := lt_of_le_of_lt ht_le h
  have hmodt : amount * 250 / 10000 % U64 = amount * 250 / 10000 := Nat.mod_eq_of_lt ht_lt
  have hm1 : amount * 250 / 10000 * 9000 < U128 := by
    have h2 : amount * 250 / 10000 * 9000 ≤ U64 * 9000 :=
      Nat.mul_le_mul_right 9000 (le_of_lt ht_lt)
    have h3 : U64 * 9000 < U128 := by decide
    omega
  have hm2 : amount * 250 / 10000 * 1000 < U128 := by
    have h2 : amount * 250 / 10000 * 1000 ≤ U64 * 1000 :=
      Nat.mul_le_mul_right 1000 (le_of_lt ht_lt)
    have h3 : U64 * 1000 < U128 := by decide
    omega
  have hmf_lt : amount * 250 / 10000 * 9000 / 10000 < U64 := by
    have h2 : amount * 250 / 10000 * 9000 / 10000 ≤ amount * 250 / 10000 := by
      generalize amount * 250 / 10000 = t
      omega
    omega
  have hsf_lt : amount * 250 / 10000 * 1000 / 10000 < U64 := by
    have h2 : amount * 250 / 10000 * 1000 / 10000 ≤ amount * 250 / 10000 := by
      generalize amount * 250 / 10000 = t
      omega
    omega
  simp only [calculate_and_distribute_fee, FEE_DENOMINATOR, MARKETPLACE_FEE_SHARE,
    SECOND_BIDDER_FEE_SHARE, hmodt, h1, if_pos, hm1, hm2, and_self, ht_le,
    Nat.mod_eq_of_lt hmf_lt, Nat.mod_eq_of_lt hsf_lt]

/-- A verified creator in a list with verified share total at most 100
has share at most 100. -/
lemma share_le_of_sharesSum_le (cs : List Creator) (hsh : sharesSum cs ≤ 100) :
    ∀ c ∈ cs, c.verified = true → c.share ≤ 100 := by
  intro c hc hv
  have hmem : c.share ∈ (cs.filter fun c2 => c2.verified).map fun c2 => c2.share :=
    List.mem_map_of_mem _ (List.mem_filter.mpr ⟨hc, by simp [hv]⟩)
  exact le_trans (List.single_le_sum (by simp) _ hmem) hsh

/-- The exact royalty sum never exceeds the price when the verified
shares total at most 100. -/
lemma royaltySum_le_price (price : Nat) (cs : List Creator) (hsh : sharesSum cs ≤ 100) :
    royaltySum price cs ≤ price :=
  le_trans (royaltySum_le price cs) (fee_le_price price (sharesSum cs) hsh)

/-- Success characterization of calculate_creator_payments for a u64
price and verified shares totalling at most 100. -/
lemma ccp_eq (price : Nat) (cs : List Creator) (hp : price < U64) (hsh : sharesSum cs ≤ 100) :
    calculate_creator_payments price (some cs) =
      some (royaltyPayments price cs, price - royaltySum price cs) := by
  simp only [calculate_creator_payments]
  exact creatorLoop_eq price hp cs price (share_le_of_sharesSum_le cs hsh)
    (royaltySum_le_price price cs hsh)

/-- Full characterization of the settlement computation for a u64 price
and verified shares totalling at most 100. -/
lemma settle_eq (price shb : Nat) (cs : List Creator) (hp : price < U64)
    (hsh : sharesSum cs ≤ 100) :
    settle price (some cs) shb =
      some (royaltyPayments price cs,
            (price - royaltySum price cs) * 250 / 10000 * 9000 / 10000 +
              ((price - royaltySum price cs) * 250 / 10000 * 1000 / 10000 -
                min ((price - royaltySum price cs) * 250 / 10000 * 1000 / 10000) shb),
            min ((price - royaltySum price cs) * 250 / 10000 * 1000 / 10000) shb,
            price - royaltySum price cs - (price - royaltySum price cs) * 250 / 10000) := by
  have hrem : price - royaltySum price cs < U64 := lt_of_le_of_lt (Nat.sub_le _ _) hp
  simp only [settle, ccp_eq price cs hp hsh, cadf_eq (price - royaltySum price cs) shb hrem]

/-- Reduction of the 90 percent share to a single division by 10. -/
lemma mul9000_div (t : Nat) : t * 9000 / 10000 = t * 9 / 10 := by
  have := Nat.mul_div_mul_right (t * 9) 10 (show 0 < 1000 by norm_num)
  omega

/-- Reduction of the 10 percent share to a single division by 10. -/
lemma mul1000_div (t : Nat) : t * 1000 / 10000 = t / 10 := by
  have := Nat.mul_div_mul_right t 10 (show 0 < 1000 by norm_num)
  omega

/-- Arithmetic of the platform split: the marketplace and rebate legs
plus the dust reconstitute the total fee. -/
lemma split_dust (t mn : Nat) (hmn : mn ≤ t * 1000 / 10000) :
    t * 9000 / 10000 + (t * 1000 / 10000 - mn) + mn + feeDust t = t := by
  rw [mul1000_div] at hmn
  rw [mul9000_div, mul1000_div]
  unfold feeDust
  by_cases ht : t % 10 = 0 <;> simp only [ht, reduceIte] <;> omega

/-- The dust is at most one unit. -/
lemma feeDust_le (t : Nat) : feeDust t ≤ 1 := by
  unfold feeDust
  split <;> omega

/-- Arithmetic of the platform split applied to an amount: the four
summed legs land within one unit below the amount. -/
lemma sum_bounds (a mn : Nat) (hmn : mn ≤ a * 250 / 10000 * 1000 / 10000) :
    a * 250 / 10000 * 9000 / 10000 + (a * 250 / 10000 * 1000 / 10000 - mn) + mn +
      (a - a * 250 / 10000) ≤ a ∧
    a ≤ a * 250 / 10000 * 9000 / 10000 + (a * 250 / 10000 * 1000 / 10000 - mn) + mn +
      (a - a * 250 / 10000) + 1 := by
  have h := split_dust (a * 250 / 10000) mn hmn
  have hd := feeDust_le (a * 250 / 10000)
  have ht : a * 250 / 10000 ≤ a := by omega
  omega

/-- C1, corrected.  The settlement tuple does not conserve value
exactly: the marketplace and rebate legs floor separately, so one unit
of dust is lost whenever the total fee is not a multiple of 10.  At
price 1000 with one verified creator at share 10 and secondHighestBid 0
the code produces creatorFee 100, rebateFee 0, marketplaceFee 21 (not
22), sellerPayment 878, and the components sum to 999, not 1000. -/
theorem C1_counterexample :
    settle 1000 (some [⟨1, true, 10⟩]) 0 = some ([(1, 100)], 21, 0, 878) ∧
    100 + 21 + 0 + 878 ≠ 1000 := by decide

/-- C1, amended.  For every u64 gross price, every creator list whose
verified shares sum to at most 100, and every secondHighestBid, the
settlement succeeds and the sum of all per-creator royalties, the
marketplace fee, the rebate fee and the seller payment equals the gross
price minus a rounding dust of at most one unit (zero exactly when the
total fee is a multiple of 10). -/
theorem C1_value_conservation_dust :
    ∀ (price shb : Nat) (cs : List Creator),
      price < U64 → sharesSum cs ≤ 100 →
      ∃ pays mf sbf sp,
        settle price (some cs) shb = some (pays, mf, sbf, sp) ∧
        paymentsTotal pays + mf + sbf + sp ≤ price ∧
        price ≤ paymentsTotal pays + mf + sbf + sp + 1 := by
  intro price shb cs hp hsh
  have hR : royaltySum price cs ≤ price := royaltySum_le_price price cs hsh
  have hb := sum_bounds (price - royaltySum price cs)
    (min ((price - royaltySum price cs) * 250 / 10000 * 1000 / 10000) shb)
    (Nat.min_le_left _ _)
  refine ⟨_, _, _, _, settle_eq price shb cs hp hsh, ?_, ?_⟩ <;>
    rw [paymentsTotal_royaltyPayments] <;> omega

/-- C1 witness: the amended conservation bound instantiated at the
concrete example of the specification. -/
theorem C1_witness :
    ∃ pays mf sbf sp,
      settle 1000 (some [⟨1, true, 10⟩]) 0 = some (pays, mf, sbf, sp) ∧
      paymentsTotal pays + mf + sbf + sp ≤ 1000 ∧
      1000 ≤ paymentsTotal pays + mf + sbf + sp + 1 :=
  C1_value_conservation_dust 1000 0 [⟨1, true, 10⟩] (by decide) (by decide)

/-- C2, corrected.  marketplaceFee + rebateFee does not always equal
totalFee: the two nominal shares floor separately, losing one unit
whenever totalFee is not a multiple of 10.  At remainder 900 and
secondHighestBid 5 the code returns (19, 2, 878): totalFee is 22 but
19 + 2 = 21, and 19 + 2 + 878 = 899, not 900. -/
theorem C2_counterexample :
    calculate_and_distribute_fee 900 5 = some (19, 2, 878) ∧
    900 * 250 / 10000 = 22 ∧ 19 + 2 ≠ 22 ∧ 19 + 2 + 878 ≠ 900 := by decide

/-- C2, amended.  For every u64 remainder and every secondHighestBid,
the split succeeds; the rebate is the nominal rebate capped at
secondHighestBid, the capping shortfall is folded into the marketplace
fee (never discarded), and marketplaceFee + rebateFee equals
nominalMarketplace + nominalRebate, which is totalFee minus a dust of
one unit when totalFee is not a multiple of 10; consequently
marketplaceFee + rebateFee + sellerPayment equals the remainder minus
that same dust. -/
theorem C2_platform_split :
    ∀ (amount shb : Nat), amount < U64 →
      ∃ mf sbf sp,
        calculate_and_distribute_fee amount shb = some (mf, sbf, sp) ∧
        sbf = min (amount * 250 / 10000 * 1000 / 10000) shb ∧
        mf = amount * 250 / 10000 * 9000 / 10000 +
              (amount * 250 / 10000 * 1000 / 10000 - sbf) ∧
        mf + sbf + feeDust (amount * 250 / 10000) = amount * 250 / 10000 ∧
        mf + sbf + sp + feeDust (amount * 250 / 10000) = amount := by
  intro amount shb h
  have hd := split_dust (amount * 250 / 10000)
    (min (amount * 250 / 10000 * 1000 / 10000) shb) (Nat.min_le_left _ _)
  have ht : amount * 250 / 10000 ≤ amount := by omega
  refine ⟨_, _, _, cadf_eq amount shb h, rfl, rfl, ?_, ?_⟩ <;> omega

/-- C2 witness: the amended split law instantiated at remainder 900 and
secondHighestBid 5. -/
theorem C2_witness :
    ∃ mf sbf sp,
      calculate_and_distribute_fee 900 5 = some (mf, sbf, sp) ∧
      sbf = min (900 * 250 / 10000 * 1000 / 10000) 5 ∧
      mf = 900 * 250 / 10000 * 9000 / 10000 +
            (900 * 250 / 10000 * 1000 / 10000 - sbf) ∧
      mf + sbf + feeDust (900 * 250 / 10000) = 900 * 250 / 10000 ∧
      mf + sbf + sp + feeDust (900 * 250 / 10000) = 900 :=
  C2_platform_split 900 5 (by decide)

/-- C3, corrected.  The claim fails for creator lists whose verified
shares exceed 100: at price 10 with one verified creator at share 200
the checked subtraction of the fee underflows and the function panics
instead of returning a payment list and remainder. -/
theorem C3_counterexample :
    calculate_creator_payments 10 (some [⟨5, true, 200⟩]) = none := by decide

/-- C3, amended.  For every u64 price and every creator list whose
verified shares sum to at most 100, computeRoyalties succeeds,
paying exactly the verified entries in registry order with fee
floor(price * sharePercent / 100) each, and returns remainder equal to
the price minus the sum of those fees; unverified entries receive no
payment and do not reduce the remainder. -/
theorem C3_royalties :
    ∀ (price : Nat) (cs : List Creator),
      price < U64 → sharesSum cs ≤ 100 →
      calculate_creator_payments price (some cs) =
        some (royaltyPayments price cs, price - royaltySum price cs) ∧
      royaltySum price cs ≤ price := by
  intro price cs hp hsh
  exact ⟨ccp_eq price cs hp hsh, royaltySum_le_price price cs hsh⟩

/-- C3 witness: a three-creator list with an unverified middle entry. -/
theorem C3_witness :
    calculate_creator_payments 1000 (some [⟨1, true, 10⟩, ⟨2, false, 50⟩, ⟨3, true, 5⟩]) =
      some ([(1, 100), (3, 50)], 850) := by
  rw [(C3_royalties 1000 [⟨1, true, 10⟩, ⟨2, false, 50⟩, ⟨3, true, 5⟩]
    (by decide) (by decide)).1]
  decide

/-- C6, corrected.  The multiply-before-divide steps do use a u128
intermediate, but there is no range check before the as-u64 narrowing
and no ArithmeticOverflow error: at price 2 ^ 63 with one verified
creator at share 200 the exact fee floor(price * share / 100) is 2 ^ 64,
which wraps to 0, and the function silently returns the wrapped fee. -/
theorem C6_counterexample :
    calculate_creator_payments (2 ^ 63) (some [⟨9, true, 200⟩]) = some ([(9, 0)], 2 ^ 63) ∧
    2 ^ 63 * 200 / 100 = 2 ^ 64 ∧ (0 : Nat) ≠ 2 ^ 64 := by decide

/-- C6, amended.  The u128 intermediate is wide enough that the
multiplication itself never overflows for u64 price and u8 share, but
the narrowing back to u64 carries no range check and wraps modulo 2 ^ 64
instead of failing with ArithmeticOverflow; whenever every verified
share is at most 100 the narrowing is exact, and any successful run
returns exactly the floors floor(price * sharePercent / 100). -/
theorem C6_exact_when_shares_bounded :
    ∀ (price : Nat) (cs : List Creator) (pays : List (Nat × Nat)) (rem : Nat),
      price < U64 → (∀ c ∈ cs, c.verified = true → c.share ≤ 100) →
      calculate_creator_payments price (some cs) = some (pays, rem) →
      pays = royaltyPayments price cs ∧ price = rem + royaltySum price cs := by
  intro price cs pays rem hp hsh hrun
  simp only [calculate_creator_payments] at hrun
  exact creatorLoop_exact price hp cs price pays rem hsh hrun

/-- C6 witness: a successful run whose returned fee is the exact floor. -/
theorem C6_witness :
    [((4 : Nat), (4 : Nat))] = royaltyPayments 7 [⟨4, true, 60⟩] ∧
    (7 : Nat) = 3 + royaltySum 7 [⟨4, true, 60⟩] :=
  C6_exact_when_shares_bounded 7 [⟨4, true, 60⟩] [(4, 4)] 3
    (by decide) (by decide) (by decide)

/-- C5, corrected.  Neither create_listing nor place_bid validates the
price or the quantity: with price 0 (and also with quantity 0) both
succeed and create the record; at the concrete input below create with
price 0 returns ok with a Listing record of price 0, create with
quantity 0 returns ok with a Listing record of quantity 0, and place
with price 0 returns ok with a Bid record of price 0.  No
ValidationError exists in the program. -/
theorem C5_counterexample :
    create_listing ⟨⟨0, 0, 0, 0, 0⟩, 10, 0, 0, none, 100, 0⟩ 1 2 0 5 0 0 3 =
      .ok ⟨⟨0, 0, 0, 0, 0⟩, 5, 5, 0, some ⟨1, 2, 0, 5, 0, 0⟩, 97, 3⟩ ∧
    create_listing ⟨⟨0, 0, 0, 0, 0⟩, 10, 0, 0, none, 100, 0⟩ 1 2 9 0 0 0 3 =
      .ok ⟨⟨0, 0, 0, 0, 0⟩, 10, 0, 0, some ⟨1, 2, 9, 0, 0, 0⟩, 97, 3⟩ ∧
    place_bid ⟨⟨0, 0, 0, 0, 0⟩, 50, 0, 0, 0, none, 100, 0, 0⟩ 7 2 0 0 0 3 =
      .ok ⟨⟨0, 0, 0, 0, 0⟩, 50, 0, 0, 0, some ⟨7, 2, 0, 0, 0⟩, 97, 0, 3⟩ :=
  ⟨rfl, rfl, rfl⟩

/-- C5, amended.  create_listing and place_bid perform no validation at
all: for every state and every price and quantity (zero included), as
long as the custody transfer and the rent debit succeed, the instruction
succeeds and creates the record with exactly the supplied fields. -/
theorem C5_no_validation :
    (∀ (st : ListingState) (seller nft_mint price quantity : Nat) (now expiry : Int)
        (rent : Nat),
      st.listing = none → quantity ≤ st.seller_nft_account → rent ≤ st.seller_lamports →
      ∃ st2, create_listing st seller nft_mint price quantity now expiry rent = .ok st2 ∧
        st2.listing = some ⟨seller, nft_mint, price, quantity, now, expiry⟩) ∧
    (∀ (st : BidState) (bidder nft_mint price : Nat) (now expiry : Int) (rent : Nat),
      st.bid = none → price ≤ st.bidder_payment_account → rent ≤ st.bidder_lamports →
      ∃ st2, place_bid st bidder nft_mint price now expiry rent = .ok st2 ∧
        st2.bid = some ⟨bidder, nft_mint, price, now, expiry⟩) := by
  constructor
  · intro st seller nft_mint price quantity now expiry rent h1 h2 h3
    have he : create_listing st seller nft_mint price quantity now expiry rent =
        .ok { st with
              listing := some ⟨seller, nft_mint, price, quantity, now, expiry⟩,
              seller_nft_account := st.seller_nft_account - quantity,
              vault_nft_account := st.vault_nft_account + quantity,
              seller_lamports := st.seller_lamports - rent, listing_lamports := rent } := by
      simp only [create_listing, splTransfer, h1, h2, h3, if_true, ite_true]
    exact ⟨_, he, rfl⟩
  · intro st bidder nft_mint price now expiry rent h1 h2 h3
    have he : place_bid st bidder nft_mint price now expiry rent =
        .ok { st with
              bid := some ⟨bidder, nft_mint, price, now, expiry⟩,
              bidder_payment_account := st.bidder_payment_account - price,
              escrow_payment_account := st.escrow_payment_account + price,
              bidder_lamports := st.bidder_lamports - rent, bid_lamports := rent } := by
      simp only [place_bid, splTransfer, h1, h2, h3, if_true, ite_true]
    exact ⟨_, he, rfl⟩

/-- C5 witness: the no-validation law instantiated at price 0. -/
theorem C5_witness :
    (∃ st2, create_listing ⟨⟨0, 0, 0, 0, 0⟩, 10, 0, 0, none, 100, 0⟩ 1 2 0 5 0 0 3 =
        .ok st2 ∧ st2.listing = some ⟨1, 2, 0, 5, 0, 0⟩) ∧
    (∃ st2, place_bid ⟨⟨0, 0, 0, 0, 0⟩, 50, 0, 0, 0, none, 100, 0, 0⟩ 7 2 0 0 0 3 =
        .ok st2 ∧ st2.bid = some ⟨7, 2, 0, 0, 0⟩) :=
  ⟨C5_no_validation.1 ⟨⟨0, 0, 0, 0, 0⟩, 10, 0, 0, none, 100, 0⟩ 1 2 0 5 0 0 3
      rfl (by decide) (by decide),
   C5_no_validation.2 ⟨⟨0, 0, 0, 0, 0⟩, 50, 0, 0, 0, none, 100, 0, 0⟩ 7 2 0 0 0 3
      rfl (by decide) (by decide)⟩

/-- C7, confirmed.  A cancel on a Listing or a Bid whose caller differs
from the stored owner fails with the unauthorized error (the Anchor
has_one constraint), and the reverted transaction leaves the state, the
record and all balances unaltered. -/
theorem C7_unauthorized_cancel :
    (∀ (caller : Nat) (st : ListingState) (l : ListingRec),
      st.listing = some l → caller ≠ l.seller →
      cancel_listing caller st = .error .unauthorized ∧ runCancelListing caller st = st) ∧
    (∀ (caller : Nat) (st : BidState) (b : BidRec),
      st.bid = some b → caller ≠ b.bidder →
      cancel_bid caller st = .error .unauthorized ∧ runCancelBid caller st = st) := by
  constructor
  · intro caller st l h1 h2
    have he : cancel_listing caller st = .error .unauthorized := by
      simp only [cancel_listing, h1, if_neg h2]
    exact ⟨he, by simp only [runCancelListing, he]⟩
  · intro caller st b h1 h2
    have he : cancel_bid caller st = .error .unauthorized := by
      simp only [cancel_bid, h1, if_neg h2]
    exact ⟨he, by simp only [runCancelBid, he]⟩

/-- C7 witness: a stranger (key 2) attempting to cancel a listing owned
by key 1, and a stranger (key 9) attempting to cancel a bid owned by
key 7. -/
theorem C7_witness :
    (cancel_listing 2 ⟨⟨0, 0, 0, 0, 0⟩, 0, 4, 0, some ⟨1, 2, 5, 4, 0, 0⟩, 10, 3⟩ =
        .error .unauthorized ∧
      runCancelListing 2 ⟨⟨0, 0, 0, 0, 0⟩, 0, 4, 0, some ⟨1, 2, 5, 4, 0, 0⟩, 10, 3⟩ =
        ⟨⟨0, 0, 0, 0, 0⟩, 0, 4, 0, some ⟨1, 2, 5, 4, 0, 0⟩, 10, 3⟩) ∧
    (cancel_bid 9 ⟨⟨0, 0, 0, 0, 0⟩, 0, 5, 0, 0, some ⟨7, 2, 5, 0, 0⟩, 10, 0, 3⟩ =
        .error .unauthorized ∧
      runCancelBid 9 ⟨⟨0, 0, 0, 0, 0⟩, 0, 5, 0, 0, some ⟨7, 2, 5, 0, 0⟩, 10, 0, 3⟩ =
        ⟨⟨0, 0, 0, 0, 0⟩, 0, 5, 0, 0, some ⟨7, 2, 5, 0, 0⟩, 10, 0, 3⟩) :=
  ⟨C7_unauthorized_cancel.1 2 ⟨⟨0, 0, 0, 0, 0⟩, 0, 4, 0, some ⟨1, 2, 5, 4, 0, 0⟩, 10, 3⟩
      ⟨1, 2, 5, 4, 0, 0⟩ rfl (by decide),
   C7_unauthorized_cancel.2 9 ⟨⟨0, 0, 0, 0, 0⟩, 0, 5, 0, 0, some ⟨7, 2, 5, 0, 0⟩, 10, 0, 3⟩
      ⟨7, 2, 5, 0, 0⟩ rfl (by decide)⟩

/-- C9, confirmed.  create_listing immediately followed by
cancel_listing by the same seller restores the NFT holdings of the
seller and of the vault exactly and leaves no Listing record; place_bid
immediately followed by cancel_bid by the same bidder restores the
payment holding of the bidder and the escrow exactly and leaves no Bid
record. -/
theorem C9_round_trip :
    (∀ (st : ListingState) (seller nft_mint price quantity : Nat) (now expiry : Int)
        (rent : Nat),
      st.listing = none → quantity ≤ st.seller_nft_account → rent ≤ st.seller_lamports →
      ∃ st1 st2,
        create_listing st seller nft_mint price quantity now expiry rent = .ok st1 ∧
        cancel_listing seller st1 = .ok st2 ∧
        st2.seller_nft_account = st.seller_nft_account ∧
        st2.vault_nft_account = st.vault_nft_account ∧
        st2.seller_lamports = st.seller_lamports ∧
        st2.listing = none) ∧
    (∀ (st : BidState) (bidder nft_mint price : Nat) (now expiry : Int) (rent : Nat),
      st.bid = none → price ≤ st.bidder_payment_account → rent ≤ st.bidder_lamports →
      ∃ st1 st2,
        place_bid st bidder nft_mint price now expiry rent = .ok st1 ∧
        cancel_bid bidder st1 = .ok st2 ∧
        st2.bidder_payment_account = st.bidder_payment_account ∧
        st2.escrow_payment_account = st.escrow_payment_account ∧
        st2.bidder_lamports = st.bidder_lamports ∧
        st2.bid = none) := by
  constructor
  · intro st seller nft_mint price quantity now expiry rent h1 h2 h3
    have hq : quantity ≤ st.vault_nft_account + quantity := Nat.le_add_left _ _
    have he1 : create_listing st seller nft_mint price quantity now expiry rent =
        .ok { st with
              listing := some ⟨seller, nft_mint, price, quantity, now, expiry⟩,
              seller_nft_account := st.seller_nft_account - quantity,
              vault_nft_account := st.vault_nft_account + quantity,
              seller_lamports := st.seller_lamports - rent, listing_lamports := rent } := by
      simp only [create_listing, splTransfer, h1, h2, h3, if_true, ite_true]
    have he2 : cancel_listing seller
        { st with
          listing := some ⟨seller, nft_mint, price, quantity, now, expiry⟩,
          seller_nft_account := st.seller_nft_account - quantity,
          vault_nft_account := st.vault_nft_account + quantity,
          seller_lamports := st.seller_lamports - rent, listing_lamports := rent } =
        .ok { st with
              listing := none,
              seller_nft_account := st.seller_nft_account - quantity + quantity,
              vault_nft_account := st.vault_nft_account + quantity - quantity,
              seller_lamports := st.seller_lamports - rent + rent, listing_lamports := 0 } := by
      simp only [cancel_listing, splTransfer, hq, if_true, ite_true]
    refine ⟨_, _, he1, he2, ?_, ?_, ?_, rfl⟩
    · show st.seller_nft_account - quantity + quantity = st.seller_nft_account
      omega
    · show st.vault_nft_account + quantity - quantity = st.vault_nft_account
      omega
    · show st.seller_lamports - rent + rent = st.seller_lamports
      omega
  · intro st bidder nft_mint price now expiry rent h1 h2 h3
    have hq : price ≤ st.escrow_payment_account + price := Nat.le_add_left _ _
    have he1 : place_bid st bidder nft_mint price now expiry rent =
        .ok { st with
              bid := some ⟨bidder, nft_mint, price, now, expiry⟩,
              bidder_payment_account := st.bidder_payment_account - price,
              escrow_payment_account := st.escrow_payment_account + price,
              bidder_lamports := st.bidder_lamports - rent, bid_lamports := rent } := by
      simp only [place_bid, splTransfer, h1, h2, h3, if_true, ite_true]
    have he2 : cancel_bid bidder
        { st with
          bid := some ⟨bidder, nft_mint, price, now, expiry⟩,
          bidder_payment_account := st.bidder_payment_account - price,
          escrow_payment_account := st.escrow_payment_account + price,
          bidder_lamports := st.bidder_lamports - rent, bid_lamports := rent } =
        .ok { st with
              bid := none,
              bidder_payment_account := st.bidder_payment_account - price + price,
              escrow_payment_account := st.escrow_payment_account + price - price,
              bidder_lamports := st.bidder_lamports - rent + rent, bid_lamports := 0 } := by
      simp only [cancel_bid, splTransfer, hq, if_true, ite_true]
    refine ⟨_, _, he1, he2, ?_, ?_, ?_, rfl⟩
    · show st.bidder_payment_account - price + price = st.bidder_payment_account
      omega
    · show st.escrow_payment_account + price - price = st.escrow_payment_account
      omega
    · show st.bidder_lamports - rent + rent = st.bidder_lamports
      omega

/-- C9 witness: the round trip at a concrete listing and a concrete
bid. -/
theorem C9_witness :
    (∃ st1 st2,
      create_listing ⟨⟨0, 0, 0, 0, 0⟩, 10, 0, 0, none, 100, 0⟩ 1 2 5 4 0 0 3 = .ok st1 ∧
      cancel_listing 1 st1 = .ok st2 ∧
      st2.seller_nft_account = 10 ∧ st2.vault_nft_account = 0 ∧
      st2.seller_lamports = 100 ∧ st2.listing = none) ∧
    (∃ st1 st2,
      place_bid ⟨⟨0, 0, 0, 0, 0⟩, 50, 0, 0, 0, none, 100, 0, 0⟩ 7 2 30 0 0 3 = .ok st1 ∧
      cancel_bid 7 st1 = .ok st2 ∧
      st2.bidder_payment_account = 50 ∧ st2.escrow_payment_account = 0 ∧
      st2.bidder_lamports = 100 ∧ st2.bid = none) :=
  ⟨C9_round_trip.1 ⟨⟨0, 0, 0, 0, 0⟩, 10, 0, 0, none, 100, 0⟩ 1 2 5 4 0 0 3
      rfl (by decide) (by decide),
   C9_round_trip.2 ⟨⟨0, 0, 0, 0, 0⟩, 50, 0, 0, 0, none, 100, 0, 0⟩ 7 2 30 0 0 3
      rfl (by decide) (by decide)⟩

/-- C8, confirmed.  Every successful execute_sale on a listing of
quantity 1 destroys the record and releases its storage lamports to the
seller; on quantity greater than 1 it leaves the record with quantity
decremented by one and every other field unchanged. -/
theorem C8_listing_update :
    ∀ (st : ListingState) (creators : Option (List Creator)) (shb : Nat) (l : ListingRec)
      (st2 : ListingState),
      st.listing = some l → execute_sale st creators shb = .ok st2 →
      (l.quantity = 1 →
        st2.listing = none ∧
        st2.seller_lamports = st.seller_lamports + st.listing_lamports ∧
        st2.listing_lamports = 0) ∧
      (1 < l.quantity →
        st2.listing = some { l with quantity := l.quantity - 1 } ∧
        st2.seller_lamports = st.seller_lamports ∧
        st2.listing_lamports = st.listing_lamports) := by
  intro st creators shb l st2 hl hrun
  simp only [execute_sale, hl] at hrun
  rcases h1 : calculate_creator_payments l.price creators with _ | ⟨pays, rem⟩ <;>
    simp only [h1] at hrun
  · exact Except.noConfusion hrun
  · rcases h2 : calculate_and_distribute_fee rem shb with _ | ⟨mf, sbf, sp⟩ <;>
      simp only [h2] at hrun
    · exact Except.noConfusion hrun
    · rcases h3 : transfer_payments st.pay sp pays mf sbf with _ | pay2 <;>
        simp only [h3] at hrun
      · exact Except.noConfusion hrun
      · rcases h4 : splTransfer st.vault_nft_account st.buyer_nft_account 1 with _ | ⟨v, b⟩ <;>
          simp only [h4] at hrun
        · exact Except.noConfusion hrun
        · by_cases hq1 : l.quantity = 1
          · rw [if_pos hq1] at hrun
            injection hrun with h5
            subst h5
            exact ⟨fun _ => ⟨rfl, rfl, rfl⟩, fun hgt => absurd hgt (by omega)⟩
          · rw [if_neg hq1] at hrun
            by_cases hq0 : l.quantity = 0
            · rw [if_pos hq0] at hrun
              exact Except.noConfusion hrun
            · rw [if_neg hq0] at hrun
              injection hrun with h5
              subst h5
              exact ⟨fun h => absurd h hq1, fun _ => ⟨rfl, rfl, rfl⟩⟩

/-- The state before the concrete C8 sale: a listing of quantity 2 at
price 1000, a vault holding 3 NFT units and a buyer payment account
holding 2000. -/
def stC8pre : ListingState :=
  ⟨⟨2000, 0, 0, 0, 0⟩, 0, 3, 0, some ⟨1, 2, 1000, 2, 0, 0⟩, 10, 4⟩

/-- The state after the concrete C8 sale: seller paid 975, marketplace
paid 24, one NFT unit moved, quantity decremented to 1. -/
def stC8post : ListingState :=
  ⟨⟨1001, 975, 24, 0, 0⟩, 0, 2, 1, some ⟨1, 2, 1000, 1, 0, 0⟩, 10, 4⟩

/-- C8 witness: the quantity-decrement leg at a concrete sale on a
listing of quantity 2. -/
theorem C8_witness :
    stC8post.listing = some ⟨1, 2, 1000, 1, 0, 0⟩ ∧
    stC8post.seller_lamports = stC8pre.seller_lamports ∧
    stC8post.listing_lamports = stC8pre.listing_lamports :=
  (C8_listing_update stC8pre none 0 ⟨1, 2, 1000, 2, 0, 0⟩ stC8post rfl rfl).2 (by decide)

/-- C10, confirmed.  Every successful accept_bid closes the Bid account
with its storage lamports credited to the seller (close = seller in the
AcceptBid context) and not to the bidder, while every successful
cancel_bid credits them to the bidder (close = bidder in the CancelBid
context). -/
theorem C10_rent_recipient :
    (∀ (st : BidState) (creators : Option (List Creator)) (shb : Nat) (st2 : BidState),
      accept_bid st creators shb = .ok st2 →
      st2.bid = none ∧
      st2.seller_lamports = st.seller_lamports + st.bid_lamports ∧
      st2.bid_lamports = 0 ∧
      st2.bidder_lamports = st.bidder_lamports) ∧
    (∀ (caller : Nat) (st st2 : BidState),
      cancel_bid caller st = .ok st2 →
      st2.bid = none ∧
      st2.bidder_lamports = st.bidder_lamports + st.bid_lamports ∧
      st2.bid_lamports = 0 ∧
      st2.seller_lamports = st.seller_lamports) := by
  constructor
  · intro st creators shb st2 hrun
    rcases hb : st.bid with _ | b <;> simp only [accept_bid, hb] at hrun
    · exact Except.noConfusion hrun
    · rcases h1 : calculate_creator_payments b.price creators with _ | ⟨pays, rem⟩ <;>
        simp only [h1] at hrun
      · exact Except.noConfusion hrun
      · rcases h2 : calculate_and_distribute_fee rem shb with _ | ⟨mf, sbf, sp⟩ <;>
          simp only [h2] at hrun
        · exact Except.noConfusion hrun
        · rcases h3 : transfer_payments st.pay sp pays mf sbf with _ | pay2 <;>
            simp only [h3] at hrun
          · exact Except.noConfusion hrun
          · rcases h4 : splTransfer st.seller_nft_account st.bidder_nft_account 1 with
              _ | ⟨sn, bn⟩ <;> simp only [h4] at hrun
            · exact Except.noConfusion hrun
            · injection hrun with h5
              subst h5
              exact ⟨rfl, rfl, rfl, rfl⟩
  · intro caller st st2 hrun
    rcases hb : st.bid with _ | b <;> simp only [cancel_bid, hb] at hrun
    · exact Except.noConfusion hrun
    · by_cases hc : caller = b.bidder
      · rw [if_pos hc] at hrun
        rcases h4 : splTransfer st.escrow_payment_account st.bidder_payment_account b.price with
          _ | ⟨es, bp⟩ <;> simp only [h4] at hrun
        · exact Except.noConfusion hrun
        · injection hrun with h5
          subst h5
          exact ⟨rfl, rfl, rfl, rfl⟩
      · rw [if_neg hc] at hrun
        exact Except.noConfusion hrun

/-- The state before the concrete C10 accept: a bid of price 1000. -/
def stC10apre : BidState :=
  ⟨⟨2000, 0, 0, 0, 0⟩, 0, 1000, 1, 0, some ⟨7, 3, 1000, 0, 0⟩, 11, 20, 5⟩

/-- The state after the concrete C10 accept: the bid account closed and
its 5 lamports credited to the seller. -/
def stC10apost : BidState :=
  ⟨⟨1001, 975, 24, 0, 0⟩, 0, 1000, 0, 1, none, 11, 25, 0⟩

/-- The state before the concrete C10 cancel: a bid of price 1000 with
1000 in escrow. -/
def stC10cpre : BidState :=
  ⟨⟨0, 0, 0, 0, 0⟩, 100, 1000, 0, 0, some ⟨7, 3, 1000, 0, 0⟩, 2, 9, 5⟩

/-- The state after the concrete C10 cancel: the bid account closed and
its 5 lamports credited to the bidder. -/
def stC10cpost : BidState :=
  ⟨⟨0, 0, 0, 0, 0⟩, 1100, 0, 0, 0, none, 7, 9, 0⟩

/-- C10 witness: the rent recipients at a concrete accept and a concrete
cancel. -/
theorem C10_witness :
    (stC10apost.bid = none ∧
      stC10apost.seller_lamports = stC10apre.seller_lamports + stC10apre.bid_lamports ∧
      stC10apost.bid_lamports = 0 ∧
      stC10apost.bidder_lamports = stC10apre.bidder_lamports) ∧
    (stC10cpost.bid = none ∧
      stC10cpost.bidder_lamports = stC10cpre.bidder_lamports + stC10cpre.bid_lamports ∧
      stC10cpost.bid_lamports = 0 ∧
      stC10cpost.seller_lamports = stC10cpre.seller_lamports) :=
  ⟨C10_rent_recipient.1 stC10apre none 0 stC10apost rfl,
   C10_rent_recipient.2 7 stC10cpre stC10cpost rfl⟩

/-- The state before the concrete C4 accept: the bidder deposited 1000
into the escrow at place time; the buyer payment account (an ExecuteSale
context account, absent from AcceptBid) holds 2000. -/
def stC4pre : BidState :=
  ⟨⟨2000, 0, 0, 0, 0⟩, 0, 1000, 1, 0, some ⟨7, 3, 1000, 0, 0⟩, 0, 0, 5⟩

/-- The state after the concrete C4 accept: the escrow still holds 1000
while 999 (975 to the seller plus 24 to the marketplace) was drawn from
the buyer payment account. -/
def stC4post : BidState :=
  ⟨⟨1001, 975, 24, 0, 0⟩, 0, 1000, 0, 1, none, 0, 5, 0⟩

/-- C4, code bug.  On a successful accept_bid the settlement payouts are
not drawn from the bid escrow: transfer_payments debits the
buyer_payment_account field of the ExecuteSale context (the program
passes its AcceptBid context to helpers declared over ExecuteSale), and
the escrow_payment_account declared mutable in AcceptBid is never
touched, stranding the escrowed 1000 while the Bid record is destroyed;
the parts of the claim about the single NFT unit moving from seller to
bidder and the Bid record being destroyed do hold. -/
theorem C4_escrow_never_debited :
    accept_bid stC4pre none 0 = .ok stC4post ∧
    stC4post.escrow_payment_account = stC4pre.escrow_payment_account ∧
    stC4post.pay.buyer_payment_account + 999 = stC4pre.pay.buyer_payment_account ∧
    stC4post.seller_nft_account + 1 = stC4pre.seller_nft_account ∧
    stC4post.bidder_nft_account = stC4pre.bidder_nft_account + 1 ∧
    stC4post.bid = none :=
  ⟨rfl, rfl, rfl, rfl, rfl, rfl⟩

